import Mathlib

/-!
Shallow embedding of the etopo1 sampling pipeline (src/sample.py and
src/export.py). Exact rational arithmetic (ℚ) stands in for Python floats;
Python exceptions are modelled with `Except`/`Option`. Every definition is
translated from the source; the one definition modelled from the spec
(the external spline routine's sample-count precondition) is marked as such.
-/

namespace Sample

/-- Python exceptions that the sampling code can raise at runtime. -/
inductive PyError where
  | valueError
  | indexError
  deriving DecidableEq

/-- Function `interp1` of src/sample.py, basic 1d linear interpolation:
`pct = (x - xx[0]) / (xx[1] - xx[0]); return yy[0] + pct * (yy[1] - yy[0])`. -/
def interp1 (xx yy : List ℚ) (x : ℚ) : ℚ :=
  let pct := (x - xx.getD 0 0) / (xx.getD 1 0 - xx.getD 0 0)
  yy.getD 0 0 + pct * (yy.getD 1 0 - yy.getD 0 0)

/-- Python `[float(v) for v in part.split(",")]`: a field of a coordinate
tuple is `some v` when `float` parses it and `none` when it is non-numeric,
in which case `float` raises `ValueError` at the first bad field. -/
def floatList : List (Option ℚ) → Except PyError (List ℚ)
  | [] => .ok []
  | none :: _ => .error .valueError
  | some v :: rest => (floatList rest).map (v :: ·)

/-- The loop of `getQuad` (src/sample.py): for each coordinate tuple, parse
its fields, then append `values[1]` to `lats` and `values[0]` to `lons`;
`values[1]` raises `IndexError` when a tuple has fewer than two fields. -/
def collectLatLons : List (List (Option ℚ)) → Except PyError (List ℚ × List ℚ)
  | [] => .ok ([], [])
  | part :: rest =>
    match floatList part with
    | .error e => .error e
    | .ok values =>
      match values.get? 1, values.get? 0 with
      | some lat, some lon =>
        match collectLatLons rest with
        | .error e => .error e
        | .ok (lats, lons) => .ok (lat :: lats, lon :: lons)
      | _, _ => .error .indexError

/-- Python `min` over a list: raises `ValueError` on an empty list. -/
def pyMin : List ℚ → Except PyError ℚ
  | [] => .error .valueError
  | x :: rest => .ok (rest.foldl min x)

/-- Python `max` over a list: raises `ValueError` on an empty list. -/
def pyMax : List ℚ → Except PyError ℚ
  | [] => .error .valueError
  | x :: rest => .ok (rest.foldl max x)

/-- Function `getQuad` of src/sample.py, after the KML text has been split
into coordinate tuples: collects vertex latitudes and longitudes and returns
`[latMin, latMax, lonMin, lonMax]` via Python `min`/`max`. -/
def getQuad (parts : List (List (Option ℚ))) : Except PyError (List ℚ) :=
  match collectLatLons parts with
  | .error e => .error e
  | .ok (lats, lons) =>
    match pyMin lats, pyMax lats, pyMin lons, pyMax lons with
    | .ok latMin, .ok latMax, .ok lonMin, .ok lonMax =>
      .ok [latMin, latMax, lonMin, lonMax]
    | _, _, _, _ => .error .valueError

/-- Model of `numpy.arange(start, stop, step)` over exact rationals: the
elements `start + k * step` for `0 ≤ k < ⌈(stop - start) / step⌉`. -/
def npArange (start stop step : ℚ) : List ℚ :=
  (List.range (⌈(stop - start) / step⌉).toNat).map fun (k : ℕ) => start + (k : ℚ) * step

/-- Python `range(a, b)` over ℤ: the list `[a, a + 1, ..., b - 1]`. -/
def pyRange (a b : ℤ) : List ℤ :=
  (List.range (b - a).toNat).map fun (k : ℕ) => a + (k : ℤ)

/-- Model of `numpy.take` along one axis of length `n` (default
`mode="raise"`): an index must lie in `[-n, n)`; a negative index wraps to
`n + t`; an index outside that range raises `IndexError`. -/
def npTake (n : ℕ) : List ℤ → Except PyError (List ℕ)
  | [] => .ok []
  | t :: rest =>
    if 0 ≤ t ∧ t < (n : ℤ) then
      match npTake n rest with
      | .error e => .error e
      | .ok l => .ok (t.toNat :: l)
    else if -(n : ℤ) ≤ t ∧ t < 0 then
      match npTake n rest with
      | .error e => .error e
      | .ok l => .ok ((t + n).toNat :: l)
    else .error .indexError

namespace Main

/-- Local `y0` of `main` (src/sample.py): `interp1([90, -90], [0, J], quad[1])`. -/
def y0 (J : ℕ) (quad : List ℚ) : ℚ := interp1 [90, -90] [0, (J : ℚ)] (quad.getD 1 0)

/-- Local `yF` of `main`: `interp1([90, -90], [0, J], quad[0])`. -/
def yF (J : ℕ) (quad : List ℚ) : ℚ := interp1 [90, -90] [0, (J : ℚ)] (quad.getD 0 0)

/-- Local `x0` of `main`: `interp1([-180, 180], [0, I], quad[2])`. -/
def x0 (I : ℕ) (quad : List ℚ) : ℚ := interp1 [-180, 180] [0, (I : ℚ)] (quad.getD 2 0)

/-- Local `xF` of `main`: `interp1([-180, 180], [0, I], quad[3])`. -/
def xF (I : ℕ) (quad : List ℚ) : ℚ := interp1 [-180, 180] [0, (I : ℚ)] (quad.getD 3 0)

/-- Local `j0` of `main`: `math.floor(y0)`. -/
def j0 (J : ℕ) (quad : List ℚ) : ℤ := ⌊y0 J quad⌋

/-- Local `jF` of `main`: `math.ceil(yF)`. -/
def jF (J : ℕ) (quad : List ℚ) : ℤ := ⌈yF J quad⌉

/-- Local `i0` of `main`: `math.floor(x0)`. -/
def i0 (I : ℕ) (quad : List ℚ) : ℤ := ⌊x0 I quad⌋

/-- Local `iF` of `main`: `math.ceil(xF)`. -/
def iF (I : ℕ) (quad : List ℚ) : ℤ := ⌈xF I quad⌉

/-- Local `jj` of `main`: `[j for j in range(j0, jF)]`. -/
def jj (J : ℕ) (quad : List ℚ) : List ℤ := pyRange (j0 J quad) (jF J quad)

/-- Local `ii` of `main`: `[i for i in range(i0, iF)]`. -/
def ii (I : ℕ) (quad : List ℚ) : List ℤ := pyRange (i0 I quad) (iF I quad)

/-- Row indices read from the raster by `numpy.take(topo, jj, 0)`. -/
def takeRows (J : ℕ) (quad : List ℚ) : Except PyError (List ℕ) := npTake J (jj J quad)

/-- Column indices read from the raster by `numpy.take(..., ii, 1)`. -/
def takeCols (I : ℕ) (quad : List ℚ) : Except PyError (List ℕ) := npTake I (ii I quad)

/-- Local `yy` of `main`: `numpy.arange(y0, yF, 1.0 / ppd)`. -/
def yy (J : ℕ) (quad : List ℚ) (ppd : ℚ) : List ℚ :=
  npArange (y0 J quad) (yF J quad) (1 / ppd)

/-- Local `xx` of `main`: `numpy.arange(x0, xF, 1.0 / ppd)`. -/
def xx (I : ℕ) (quad : List ℚ) (ppd : ℚ) : List ℚ :=
  npArange (x0 I quad) (xF I quad) (1 / ppd)

end Main

/-- Failure of the external spline routine, as the spec names it. -/
inductive SplineError where
  | insufficientSamples
  deriving DecidableEq

/-- Modelled from the spec: the bicubic surface fit
(`scipy.interpolate.RectBivariateSpline`, called by `main` in src/sample.py)
is an external numerical routine whose code is not in src/; per the spec,
"the sub-grid must contain at least 4 points per axis for a cubic fit; fails
with `InsufficientSamplesError` otherwise". -/
def rbsFit (js is : List ℤ) : Except SplineError Unit :=
  if js.length < 4 ∨ is.length < 4 then .error .insufficientSamples else .ok ()

/-- Failure of the resampling stage of `main`: either a Python error raised
by the `numpy.take` sub-grid extraction (`IndexError` for an out-of-range
index), or the spline fit rejecting a sub-grid with too few samples. -/
inductive ResampleError where
  | pyError (e : PyError)
  | insufficientSamples
  deriving DecidableEq

/-- The resampling stage of `main` (src/sample.py lines 76-80): first extract
the sub-grid with the two `numpy.take` calls (rows, then columns), which can
raise `IndexError`; then fit the spline over `(jj, ii)` (modelled by its
spec-level sample-count precondition) and report the output grid shape
`(len(yy), len(xx))`. -/
def resample (J I : ℕ) (quad : List ℚ) (ppd : ℚ) : Except ResampleError (ℕ × ℕ) :=
  match Main.takeRows J quad with
  | .error e => .error (.pyError e)
  | .ok _ =>
    match Main.takeCols I quad with
    | .error e => .error (.pyError e)
    | .ok _ =>
      match rbsFit (Main.jj J quad) (Main.ii I quad) with
      | .error _ => .error .insufficientSamples
      | .ok _ => .ok ((Main.yy J quad ppd).length, (Main.xx I quad ppd).length)

end Sample

namespace Export

/-- Function `interp1` of src/export.py; Python float division raises
`ZeroDivisionError` when `xx[1] - xx[0] = 0`, modelled as `none`. -/
def interp1 (xx yl : List ℚ) (x : ℚ) : Option ℚ :=
  if xx.getD 1 0 - xx.getD 0 0 = 0 then none
  else
    let pct := (x - xx.getD 0 0) / (xx.getD 1 0 - xx.getD 0 0)
    some (yl.getD 0 0 + pct * (yl.getD 1 0 - yl.getD 0 0))

/-- Function `defaultColorMap` of src/export.py: maps an altitude and the
heightmap range `[min, max]` to an RGB triplet, black to blue for negative
altitudes and green to white for non-negative ones. -/
def defaultColorMap (alt : ℚ) (rng : List ℚ) : Option (List ℚ) :=
  if alt < 0 then do
    let r ← interp1 [rng.getD 0 0, 0] [0, 0] alt
    let g ← interp1 [rng.getD 0 0, 0] [0, 0] alt
    let b ← interp1 [rng.getD 0 0, 0] [0, 1] alt
    some [r, g, b]
  else do
    let r ← interp1 [0, rng.getD 1 0] [0, 1] alt
    let g ← interp1 [0, rng.getD 1 0] [1, 1] alt
    let b ← interp1 [0, rng.getD 1 0] [0, 1] alt
    some [r, g, b]

end Export

/-! ## Helper lemmas -/

/-- Every element of `npArange start stop step` with a positive step lies in
the half-open interval `[start, stop)`. -/
theorem npArange_mem_bounds (a b s v : ℚ) (hs : 0 < s)
    (hv : v ∈ Sample.npArange a b s) : a ≤ v ∧ v < b := by
  simp only [Sample.npArange, List.mem_map, List.mem_range] at hv
  obtain ⟨k, hk, rfl⟩ := hv
  have hk2 : (k : ℤ) < ⌈(b - a) / s⌉ := Int.lt_toNat.mp hk
  have hk3 : (k : ℚ) < (b - a) / s := by
    have h1 : ((k : ℤ) : ℚ) + 1 ≤ ((⌈(b - a) / s⌉ : ℤ) : ℚ) := by
      exact_mod_cast hk2
    have h2 : ((⌈(b - a) / s⌉ : ℤ) : ℚ) < (b - a) / s + 1 := Int.ceil_lt_add_one _
    push_cast at h1
    linarith
  constructor
  · have hks : (0 : ℚ) ≤ (k : ℚ) * s := mul_nonneg (by positivity) hs.le
    linarith
  · have := (lt_div_iff₀ hs).mp hk3
    linarith

/-! ## Claim C1 -/

/-- Claim C1, amended: for every quad with `latMin < latMax`, `lonMin < lonMax`
and every density `ppd > 0`, every evaluation coordinate produced by the
resampler lies in the half-open enclosing pixel range: rows in `[j0, jF)` and
columns in `[i0, iF)`. (It need not lie within `[j0, jF-1] × [i0, iF-1]`, the
coordinate range of the sub-grid handed to the spline fit, and no margin row
or column is guaranteed: see the counterexample.) -/
theorem eval_coords_within_pixel_range (J I : ℕ) (quad : List ℚ) (ppd : ℚ)
    (hppd : 0 < ppd) (hlat : quad.getD 0 0 < quad.getD 1 0)
    (hlon : quad.getD 2 0 < quad.getD 3 0) :
    (∀ v ∈ Sample.Main.yy J quad ppd,
      ((Sample.Main.j0 J quad : ℤ) : ℚ) ≤ v ∧ v < ((Sample.Main.jF J quad : ℤ) : ℚ)) ∧
    (∀ v ∈ Sample.Main.xx I quad ppd,
      ((Sample.Main.i0 I quad : ℤ) : ℚ) ≤ v ∧ v < ((Sample.Main.iF I quad : ℤ) : ℚ)) := by
  have hstep : (0 : ℚ) < 1 / ppd := by positivity
  constructor
  · intro v hv
    simp only [Sample.Main.yy] at hv
    obtain ⟨h1, h2⟩ := npArange_mem_bounds _ _ _ _ hstep hv
    exact ⟨le_trans (Int.floor_le _) h1, lt_of_lt_of_le h2 (Int.le_ceil _)⟩
  · intro v hv
    simp only [Sample.Main.xx] at hv
    obtain ⟨h1, h2⟩ := npArange_mem_bounds _ _ _ _ hstep hv
    exact ⟨le_trans (Int.floor_le _) h1, lt_of_lt_of_le h2 (Int.le_ceil _)⟩

/-- Witness for claim C1's amended theorem at the concrete quad
`(10, 20, 30, 40)`, raster 180 × 360, density 1: the evaluation row
coordinate 70 (a member of `yy`) lies in `[j0, jF)`. -/
theorem eval_coords_within_pixel_range_witness :
    ((Sample.Main.j0 180 [10, 20, 30, 40] : ℤ) : ℚ) ≤ 70 ∧
      (70 : ℚ) < ((Sample.Main.jF 180 [10, 20, 30, 40] : ℤ) : ℚ) :=
  (eval_coords_within_pixel_range 180 360 [10, 20, 30, 40] 1 (by norm_num)
    (by norm_num) (by norm_num)).1 70 (by
      have h0 : Sample.Main.y0 180 [10, 20, 30, 40] = 70 := by
        norm_num [Sample.Main.y0, Sample.interp1]
      have hF : Sample.Main.yF 180 [10, 20, 30, 40] = 80 := by
        norm_num [Sample.Main.yF, Sample.interp1]
      rw [Sample.Main.yy, h0, hF]
      simp only [Sample.npArange]
      refine List.mem_map.mpr ⟨0, ?_, by norm_num⟩
      rw [List.mem_range]
      have h10 : ((80 : ℚ) - 70) / (1 / 1) = 10 := by norm_num
      rw [h10]
      norm_num [Int.ceil_eq_iff])

/-- Counterexample to claim C1 as stated: for the quad `(10.5, 20.5, 30, 40)`
on the 180 × 360 raster with density 5 (so `yF = 79.5` and `jF = 80`, the last
sub-grid row coordinate being `jF - 1 = 79`), the evaluation row coordinates
`yy` contain 79.3 > 79: evaluation happens beyond the sub-grid's coordinate
range, with no margin row left on that side. -/
theorem eval_coords_margin_cex :
    (21 / 2 : ℚ) < 41 / 2 ∧ (30 : ℚ) < 40 ∧ (0 : ℚ) < 5 ∧
      Sample.Main.jF 180 [21 / 2, 41 / 2, 30, 40] = 80 ∧
      ¬ ∀ v ∈ Sample.Main.yy 180 [21 / 2, 41 / 2, 30, 40] 5,
        v ≤ ((Sample.Main.jF 180 [21 / 2, 41 / 2, 30, 40] - 1 : ℤ) : ℚ) := by
  have hjF : Sample.Main.jF 180 [21 / 2, 41 / 2, 30, 40] = 80 := by
    rw [Sample.Main.jF]
    norm_num [Sample.Main.yF, Sample.interp1, Int.ceil_eq_iff]
  refine ⟨by norm_num, by norm_num, by norm_num, hjF, fun hall => ?_⟩
  have h0 : Sample.Main.y0 180 [21 / 2, 41 / 2, 30, 40] = 139 / 2 := by
    norm_num [Sample.Main.y0, Sample.interp1]
  have hF : Sample.Main.yF 180 [21 / 2, 41 / 2, 30, 40] = 159 / 2 := by
    norm_num [Sample.Main.yF, Sample.interp1]
  have hmem : (793 / 10 : ℚ) ∈ Sample.Main.yy 180 [21 / 2, 41 / 2, 30, 40] 5 := by
    rw [Sample.Main.yy, h0, hF]
    simp only [Sample.npArange]
    refine List.mem_map.mpr ⟨49, ?_, by norm_num⟩
    rw [List.mem_range]
    have h50 : ((159 : ℚ) / 2 - 139 / 2) / (1 / 5) = 50 := by norm_num
    rw [h50]
    norm_num [Int.ceil_eq_iff]
  have hle := hall _ hmem
  rw [hjF] at hle
  norm_num at hle

/-! ## Claim C2 -/

/-- Claim C2: for every quad with `latMin ≤ latMax` and `lonMin ≤ lonMax`,
the integer pixel bounds computed by `main` are `j0 = ⌊y0⌋`, `jF = ⌈yF⌉`,
`i0 = ⌊x0⌋`, `iF = ⌈xF⌉`, and they enclose the fractional bounds:
`j0 ≤ y0`, `yF ≤ jF`, `i0 ≤ x0`, `xF ≤ iF`. -/
theorem pixelBounds_enclose (J I : ℕ) (quad : List ℚ)
    (hlat : quad.getD 0 0 ≤ quad.getD 1 0) (hlon : quad.getD 2 0 ≤ quad.getD 3 0) :
    Sample.Main.j0 J quad = ⌊Sample.Main.y0 J quad⌋ ∧
    Sample.Main.jF J quad = ⌈Sample.Main.yF J quad⌉ ∧
    Sample.Main.i0 I quad = ⌊Sample.Main.x0 I quad⌋ ∧
    Sample.Main.iF I quad = ⌈Sample.Main.xF I quad⌉ ∧
    ((Sample.Main.j0 J quad : ℤ) : ℚ) ≤ Sample.Main.y0 J quad ∧
    Sample.Main.yF J quad ≤ ((Sample.Main.jF J quad : ℤ) : ℚ) ∧
    ((Sample.Main.i0 I quad : ℤ) : ℚ) ≤ Sample.Main.x0 I quad ∧
    Sample.Main.xF I quad ≤ ((Sample.Main.iF I quad : ℤ) : ℚ) :=
  ⟨rfl, rfl, rfl, rfl, Int.floor_le _, Int.le_ceil _, Int.floor_le _, Int.le_ceil _⟩

/-- Witness for claim C2 at the quad `(10, 20, 30, 40)` on the 180 × 360
raster: the floor bound `j0` is at most the fractional bound `y0`. -/
theorem pixelBounds_enclose_witness :
    ((Sample.Main.j0 180 [10, 20, 30, 40] : ℤ) : ℚ) ≤ Sample.Main.y0 180 [10, 20, 30, 40] :=
  (pixelBounds_enclose 180 360 [10, 20, 30, 40] (by norm_num) (by norm_num)).2.2.2.2.1

/-! ## Claim C4 -/

/-- Claim C4: for fixed raster dimensions `J, I > 0`, the geographic-to-pixel
mapping and its inverse compose to the identity over exact arithmetic:
`interp1([0, J], [90, -90], interp1([90, -90], [0, J], lat)) = lat` and
`interp1([0, I], [-180, 180], interp1([-180, 180], [0, I], lon)) = lon`. -/
theorem interp1_roundtrip (J I : ℕ) (lat lon : ℚ) (hJ : 0 < J) (hI : 0 < I) :
    Sample.interp1 [0, (J : ℚ)] [90, -90] (Sample.interp1 [90, -90] [0, (J : ℚ)] lat) = lat ∧
    Sample.interp1 [0, (I : ℚ)] [-180, 180]
      (Sample.interp1 [-180, 180] [0, (I : ℚ)] lon) = lon := by
  have hJ0 : (J : ℚ) ≠ 0 := Nat.cast_ne_zero.mpr hJ.ne'
  have hI0 : (I : ℚ) ≠ 0 := Nat.cast_ne_zero.mpr hI.ne'
  constructor
  · simp only [Sample.interp1, List.getD_cons_zero, List.getD_cons_succ]
    field_simp
    ring
  · simp only [Sample.interp1, List.getD_cons_zero, List.getD_cons_succ]
    field_simp
    ring

/-- Witness for claim C4 at `J = 180`, `I = 360`, `lat = 33`, `lon = -118`. -/
theorem interp1_roundtrip_witness :
    Sample.interp1 [0, ((180 : ℕ) : ℚ)] [90, -90]
      (Sample.interp1 [90, -90] [0, ((180 : ℕ) : ℚ)] 33) = 33 ∧
    Sample.interp1 [0, ((360 : ℕ) : ℚ)] [-180, 180]
      (Sample.interp1 [-180, 180] [0, ((360 : ℕ) : ℚ)] (-118)) = -118 :=
  interp1_roundtrip 180 360 33 (-118) (by norm_num) (by norm_num)

/-! ## Claim C7 -/

/-- The boundary of the spec's scenario, as coordinate tuples in KML order
`lon,lat,alt`: four vertices bounding lat `[10, 20]` and lon `[30, 40]`. -/
def scenarioBoundary : List (List (Option ℚ)) :=
  [[some 30, some 10, some 0], [some 40, some 10, some 0],
   [some 40, some 20, some 0], [some 30, some 20, some 0]]

/-- Claim C7: on a 180 × 360 raster, the scenario boundary yields the quad
`(10, 20, 30, 40)`; the pixel bounds are rows `[70, 80]` and columns
`[210, 220]`; and the output grid has exactly 10 × 10 points. -/
theorem scenario_quad_10x10 :
    Sample.getQuad scenarioBoundary = .ok [10, 20, 30, 40] ∧
    Sample.Main.j0 180 [10, 20, 30, 40] = 70 ∧
    Sample.Main.jF 180 [10, 20, 30, 40] = 80 ∧
    Sample.Main.i0 360 [10, 20, 30, 40] = 210 ∧
    Sample.Main.iF 360 [10, 20, 30, 40] = 220 ∧
    (Sample.Main.yy 180 [10, 20, 30, 40] 1).length = 10 ∧
    (Sample.Main.xx 360 [10, 20, 30, 40] 1).length = 10 := by
  have hy0 : Sample.Main.y0 180 [10, 20, 30, 40] = 70 := by
    norm_num [Sample.Main.y0, Sample.interp1]
  have hyF : Sample.Main.yF 180 [10, 20, 30, 40] = 80 := by
    norm_num [Sample.Main.yF, Sample.interp1]
  have hx0 : Sample.Main.x0 360 [10, 20, 30, 40] = 210 := by
    norm_num [Sample.Main.x0, Sample.interp1]
  have hxF : Sample.Main.xF 360 [10, 20, 30, 40] = 220 := by
    norm_num [Sample.Main.xF, Sample.interp1]
  refine ⟨?_, ?_, ?_, ?_, ?_, ?_, ?_⟩
  · simp only [scenarioBoundary, Sample.getQuad, Sample.collectLatLons, Sample.floatList,
      Sample.pyMin, Sample.pyMax, Except.map]
    norm_num [min_def, max_def]
  · rw [Sample.Main.j0, hy0]
    norm_num [Int.floor_eq_iff]
  · rw [Sample.Main.jF, hyF]
    norm_num [Int.ceil_eq_iff]
  · rw [Sample.Main.i0, hx0]
    norm_num [Int.floor_eq_iff]
  · rw [Sample.Main.iF, hxF]
    norm_num [Int.ceil_eq_iff]
  · rw [Sample.Main.yy, hy0, hyF]
    simp only [Sample.npArange, List.length_map, List.length_range]
    have h10 : ((80 : ℚ) - 70) / (1 / 1) = 10 := by norm_num
    rw [h10, show ⌈(10 : ℚ)⌉ = 10 from by norm_num [Int.ceil_eq_iff]]
    rfl
  · rw [Sample.Main.xx, hx0, hxF]
    simp only [Sample.npArange, List.length_map, List.length_range]
    have h10 : ((220 : ℚ) - 210) / (1 / 1) = 10 := by norm_num
    rw [h10, show ⌈(10 : ℚ)⌉ = 10 from by norm_num [Int.ceil_eq_iff]]
    rfl

/-! ## Claim C5 -/

/-- Parsing a coordinate tuple whose fields are all numeric succeeds and
keeps its length. -/
theorem floatList_ok (part : List (Option ℚ)) (h : ∀ v ∈ part, v.isSome) :
    ∃ values, Sample.floatList part = .ok values ∧ values.length = part.length := by
  induction part with
  | nil => exact ⟨[], rfl, rfl⟩
  | cons a rest ih =>
    match a with
    | none =>
      have := h none (List.mem_cons_self _ _)
      simp at this
    | some v =>
      obtain ⟨vals, hv, hlen⟩ := ih fun x hx => h x (List.mem_cons_of_mem _ hx)
      refine ⟨v :: vals, ?_, by simp [hlen]⟩
      simp [Sample.floatList, hv, Except.map]

/-- Collecting latitudes and longitudes succeeds on a boundary whose tuples
are all numeric with at least two fields, one latitude and one longitude per
vertex. -/
theorem collectLatLons_ok (parts : List (List (Option ℚ)))
    (hok : ∀ part ∈ parts, 2 ≤ part.length ∧ ∀ v ∈ part, v.isSome) :
    ∃ lats lons, Sample.collectLatLons parts = .ok (lats, lons) ∧
      lats.length = parts.length ∧ lons.length = parts.length := by
  induction parts with
  | nil => exact ⟨[], [], rfl, rfl, rfl⟩
  | cons part rest ih =>
    obtain ⟨hlen, hnum⟩ := hok part (List.mem_cons_self _ _)
    obtain ⟨values, hfv, hvlen⟩ := floatList_ok part hnum
    obtain ⟨lats, lons, hc, h1, h2⟩ := ih fun p hp => hok p (List.mem_cons_of_mem _ hp)
    have hv1 : values.get? 1 = some (values.get ⟨1, by omega⟩) := List.get?_eq_get (by omega)
    have hv0 : values.get? 0 = some (values.get ⟨0, by omega⟩) := List.get?_eq_get (by omega)
    refine ⟨values.get ⟨1, by omega⟩ :: lats, values.get ⟨0, by omega⟩ :: lons, ?_, by simp [h1],
      by simp [h2]⟩
    simp only [Sample.collectLatLons, hfv, hv1, hv0, hc]

/-- Claim C5, amended: `getQuad` performs no vertex-count validation and no
`MalformedBoundaryError` exists in the code: for every boundary with at least
one vertex whose coordinate tuples are all numeric with at least two fields —
in particular for one with exactly two vertices — `getQuad` succeeds and
returns a quad rather than raising. (The only failures are Python
`ValueError` for an empty boundary or a non-numeric field, and `IndexError`
for a tuple with fewer than two fields.) -/
theorem getQuad_no_vertex_count_check (parts : List (List (Option ℚ)))
    (hne : parts ≠ [])
    (hok : ∀ part ∈ parts, 2 ≤ part.length ∧ ∀ v ∈ part, v.isSome) :
    ∃ q, Sample.getQuad parts = .ok q := by
  obtain ⟨lats, lons, hc, h1, h2⟩ := collectLatLons_ok parts hok
  cases lats with
  | nil =>
    cases parts with
    | nil => exact absurd rfl hne
    | cons p ps => simp at h1
  | cons la las =>
    cases lons with
    | nil =>
      cases parts with
      | nil => exact absurd rfl hne
      | cons p ps => simp at h2
    | cons lo los =>
      refine ⟨[las.foldl min la, las.foldl max la, los.foldl min lo, los.foldl max lo], ?_⟩
      simp only [Sample.getQuad, hc, Sample.pyMin, Sample.pyMax]

/-- Witness for claim C5's amended theorem: a two-vertex boundary, for which
the claim as stated expects `MalformedBoundaryError`, succeeds. -/
theorem getQuad_no_vertex_count_check_witness :
    ∃ q, Sample.getQuad [[some 30, some 10, some 0], [some 40, some 20, some 0]] = .ok q :=
  getQuad_no_vertex_count_check
    [[some 30, some 10, some 0], [some 40, some 20, some 0]] (by simp) (by simp)

/-- Counterexample to claim C5 as stated: a boundary with exactly two
vertices does not raise at all — `getQuad` returns the bounding quad
`(10, 20, 30, 40)`. -/
theorem getQuad_two_vertices_cex :
    Sample.getQuad [[some 30, some 10, some 0], [some 40, some 20, some 0]] =
      .ok [10, 20, 30, 40] := by
  simp only [Sample.getQuad, Sample.collectLatLons, Sample.floatList, Except.map,
    Sample.pyMin, Sample.pyMax]
  norm_num [min_def, max_def]

/-! ## Claim C8 -/

/-- A left fold of `min` is bounded by its start value. -/
theorem foldl_min_le_start (xs : List ℚ) (x : ℚ) : xs.foldl min x ≤ x := by
  induction xs generalizing x with
  | nil => simp
  | cons a rest ih => exact le_trans (ih (min x a)) (min_le_left _ _)

/-- A left fold of `min` is bounded by every list element. -/
theorem foldl_min_le_mem (xs : List ℚ) (x y : ℚ) (hy : y ∈ xs) : xs.foldl min x ≤ y := by
  induction xs generalizing x with
  | nil => simp at hy
  | cons a rest ih =>
    rcases List.mem_cons.mp hy with rfl | hmem
    · exact le_trans (foldl_min_le_start rest (min x y)) (min_le_right _ _)
    · exact ih (min x a) hmem

/-- A left fold of `min` is attained: it is the start value or some element. -/
theorem foldl_min_mem (xs : List ℚ) (x : ℚ) : xs.foldl min x ∈ x :: xs := by
  induction xs generalizing x with
  | nil => simp
  | cons a rest ih =>
    rcases List.mem_cons.mp (ih (min x a)) with heq | hmem
    · rw [List.foldl_cons, heq]
      rcases min_choice x a with h1 | h1 <;> rw [h1] <;> simp
    · rw [List.foldl_cons]
      exact List.mem_cons_of_mem _ (List.mem_cons_of_mem _ hmem)

/-- A left fold of `max` dominates its start value. -/
theorem foldl_max_start_le (xs : List ℚ) (x : ℚ) : x ≤ xs.foldl max x := by
  induction xs generalizing x with
  | nil => simp
  | cons a rest ih => exact le_trans (le_max_left _ _) (ih (max x a))

/-- A left fold of `max` dominates every list element. -/
theorem foldl_max_mem_le (xs : List ℚ) (x y : ℚ) (hy : y ∈ xs) : y ≤ xs.foldl max x := by
  induction xs generalizing x with
  | nil => simp at hy
  | cons a rest ih =>
    rcases List.mem_cons.mp hy with rfl | hmem
    · exact le_trans (le_max_right _ _) (foldl_max_start_le rest (max x y))
    · exact ih (max x a) hmem

/-- A left fold of `max` is attained: it is the start value or some element. -/
theorem foldl_max_mem (xs : List ℚ) (x : ℚ) : xs.foldl max x ∈ x :: xs := by
  induction xs generalizing x with
  | nil => simp
  | cons a rest ih =>
    rcases List.mem_cons.mp (ih (max x a)) with heq | hmem
    · rw [List.foldl_cons, heq]
      rcases max_choice x a with h1 | h1 <;> rw [h1] <;> simp
    · rw [List.foldl_cons]
      exact List.mem_cons_of_mem _ (List.mem_cons_of_mem _ hmem)

/-- Collecting latitudes and longitudes yields one latitude and one
longitude per boundary vertex. -/
theorem collectLatLons_lengths (parts : List (List (Option ℚ))) :
    ∀ lats lons, Sample.collectLatLons parts = .ok (lats, lons) →
      lats.length = parts.length ∧ lons.length = parts.length := by
  induction parts with
  | nil =>
    intro lats lons h
    simp only [Sample.collectLatLons, Except.ok.injEq, Prod.mk.injEq] at h
    obtain ⟨rfl, rfl⟩ := h
    simp
  | cons part rest ih =>
    intro lats lons h
    simp only [Sample.collectLatLons] at h
    split at h
    · exact absurd h (by simp)
    · split at h
      · split at h
        · exact absurd h (by simp)
        · rename_i values hfv lat lon hpair l1 l2 hc
          simp only [Except.ok.injEq, Prod.mk.injEq] at h
          obtain ⟨rfl, rfl⟩ := h
          obtain ⟨ih1, ih2⟩ := ih l1 l2 hc
          simp [ih1, ih2]
      · exact absurd h (by simp)

/-- Claim C8: for every boundary with at least one vertex whose latitudes
and longitudes are `lats` and `lons`, the extracted quad is
`[latMin, latMax, lonMin, lonMax]` with `latMin ≤ latMax`,
`lonMin ≤ lonMax`, where `latMin`/`latMax` are the minimum/maximum of all
vertex latitudes (attained members bounding every element) and
`lonMin`/`lonMax` analogously for longitudes. -/
theorem getQuad_bounding_box (parts : List (List (Option ℚ))) (lats lons : List ℚ)
    (hne : parts ≠ []) (hc : Sample.collectLatLons parts = .ok (lats, lons)) :
    ∃ latMin latMax lonMin lonMax,
      Sample.getQuad parts = .ok [latMin, latMax, lonMin, lonMax] ∧
      latMin ≤ latMax ∧ lonMin ≤ lonMax ∧
      latMin ∈ lats ∧ latMax ∈ lats ∧ lonMin ∈ lons ∧ lonMax ∈ lons ∧
      (∀ l ∈ lats, latMin ≤ l ∧ l ≤ latMax) ∧
      (∀ l ∈ lons, lonMin ≤ l ∧ l ≤ lonMax) := by
  obtain ⟨h1, h2⟩ := collectLatLons_lengths parts lats lons hc
  cases lats with
  | nil =>
    cases parts with
    | nil => exact absurd rfl hne
    | cons p ps => simp at h1
  | cons la las =>
    cases lons with
    | nil =>
      cases parts with
      | nil => exact absurd rfl hne
      | cons p ps => simp at h2
    | cons lo los =>
      refine ⟨las.foldl min la, las.foldl max la, los.foldl min lo, los.foldl max lo,
        ?_, ?_, ?_, ?_, ?_, ?_, ?_, ?_, ?_⟩
      · simp only [Sample.getQuad, hc, Sample.pyMin, Sample.pyMax]
      · exact le_trans (foldl_min_le_start las la) (foldl_max_start_le las la)
      · exact le_trans (foldl_min_le_start los lo) (foldl_max_start_le los lo)
      · exact foldl_min_mem las la
      · exact foldl_max_mem las la
      · exact foldl_min_mem los lo
      · exact foldl_max_mem los lo
      · intro l hl
        rcases List.mem_cons.mp hl with rfl | hmem
        · exact ⟨foldl_min_le_start _ _, foldl_max_start_le _ _⟩
        · exact ⟨foldl_min_le_mem _ _ _ hmem, foldl_max_mem_le _ _ _ hmem⟩
      · intro l hl
        rcases List.mem_cons.mp hl with rfl | hmem
        · exact ⟨foldl_min_le_start _ _, foldl_max_start_le _ _⟩
        · exact ⟨foldl_min_le_mem _ _ _ hmem, foldl_max_mem_le _ _ _ hmem⟩

/-- Witness for claim C8 at a concrete two-vertex boundary with latitudes
`[10, 20]` and longitudes `[30, 40]`. -/
theorem getQuad_bounding_box_witness :
    ∃ latMin latMax lonMin lonMax,
      Sample.getQuad [[some 30, some 10], [some 40, some 20]] =
        .ok [latMin, latMax, lonMin, lonMax] ∧
      latMin ≤ latMax ∧ lonMin ≤ lonMax ∧
      latMin ∈ ([10, 20] : List ℚ) ∧ latMax ∈ ([10, 20] : List ℚ) ∧
      lonMin ∈ ([30, 40] : List ℚ) ∧ lonMax ∈ ([30, 40] : List ℚ) ∧
      (∀ l ∈ ([10, 20] : List ℚ), latMin ≤ l ∧ l ≤ latMax) ∧
      (∀ l ∈ ([30, 40] : List ℚ), lonMin ≤ l ∧ l ≤ lonMax) :=
  getQuad_bounding_box [[some 30, some 10], [some 40, some 20]] [10, 20] [30, 40]
    (by simp)
    (by simp only [Sample.collectLatLons, Sample.floatList, Except.map]; rfl)

/-! ## Claim C6 -/

/-- `numpy.take` succeeds when every index lies in `[-n, n)`. -/
theorem npTake_ok (n : ℕ) (idx : List ℤ)
    (h : ∀ t ∈ idx, -(n : ℤ) ≤ t ∧ t < (n : ℤ)) :
    ∃ l, Sample.npTake n idx = .ok l := by
  induction idx with
  | nil => exact ⟨[], rfl⟩
  | cons t rest ih =>
    obtain ⟨l, hl⟩ := ih fun s hs => h s (List.mem_cons_of_mem _ hs)
    obtain ⟨h1, h2⟩ := h t (List.mem_cons_self _ _)
    by_cases hc : 0 ≤ t ∧ t < (n : ℤ)
    · exact ⟨t.toNat :: l, by simp only [Sample.npTake, if_pos hc, hl]⟩
    · have hc2 : -(n : ℤ) ≤ t ∧ t < 0 := by omega
      exact ⟨(t + n).toNat :: l, by simp only [Sample.npTake, if_neg hc, if_pos hc2, hl]⟩

/-- `numpy.take` raises `IndexError` when some index falls outside `[-n, n)`. -/
theorem npTake_error (n : ℕ) (idx : List ℤ) (t : ℤ) (ht : t ∈ idx)
    (hbad : t < -(n : ℤ) ∨ (n : ℤ) ≤ t) :
    Sample.npTake n idx = .error .indexError := by
  induction idx with
  | nil => simp at ht
  | cons s rest ih =>
    rcases List.mem_cons.mp ht with rfl | hmem
    · have hc1 : ¬(0 ≤ t ∧ t < (n : ℤ)) := by omega
      have hc2 : ¬(-(n : ℤ) ≤ t ∧ t < 0) := by omega
      simp only [Sample.npTake, if_neg hc1, if_neg hc2]
    · have hrest := ih hmem
      by_cases hc1 : 0 ≤ s ∧ s < (n : ℤ)
      · simp only [Sample.npTake, if_pos hc1, hrest]
      · by_cases hc2 : -(n : ℤ) ≤ s ∧ s < 0
        · simp only [Sample.npTake, if_neg hc1, if_pos hc2, hrest]
        · simp only [Sample.npTake, if_neg hc1, if_neg hc2]

/-- Claim C6, amended: `main` performs no bounds check of its own and no
`OutOfBoundsError` exists in the code. The sub-grid extraction
(`numpy.take`) raises Python `IndexError` when some computed row index falls
outside `[-J, J)` or column index outside `[-I, I)`, and succeeds otherwise:
indices in `[-J, 0)` (from a quad north of the raster, for example) wrap to
the opposite edge of the raster without any error. -/
theorem take_bounds_behaviour (J I : ℕ) (quad : List ℚ) :
    ((∀ t ∈ Sample.Main.jj J quad, -(J : ℤ) ≤ t ∧ t < (J : ℤ)) →
      ∃ l, Sample.Main.takeRows J quad = .ok l) ∧
    ((∃ t ∈ Sample.Main.jj J quad, t < -(J : ℤ) ∨ (J : ℤ) ≤ t) →
      Sample.Main.takeRows J quad = .error .indexError) ∧
    ((∀ t ∈ Sample.Main.ii I quad, -(I : ℤ) ≤ t ∧ t < (I : ℤ)) →
      ∃ l, Sample.Main.takeCols I quad = .ok l) ∧
    ((∃ t ∈ Sample.Main.ii I quad, t < -(I : ℤ) ∨ (I : ℤ) ≤ t) →
      Sample.Main.takeCols I quad = .error .indexError) := by
  refine ⟨fun h => npTake_ok _ _ h, fun h => ?_, fun h => npTake_ok _ _ h, fun h => ?_⟩
  · obtain ⟨t, ht, hbad⟩ := h
    exact npTake_error _ _ t ht hbad
  · obtain ⟨t, ht, hbad⟩ := h
    exact npTake_error _ _ t ht hbad

/-- Counterexample to claim C6 as stated: the quad `(91, 92, 30, 40)` lies
entirely north of the raster's extent (latMin = 91 > 90), yet no error of
any kind is raised: the row bounds are `j0 = -2`, `jF = -1`, and the single
negative row index wraps around to row 178, so both take operations
succeed. -/
theorem take_wraps_cex :
    (90 : ℚ) < 91 ∧
    Sample.Main.j0 180 [91, 92, 30, 40] = -2 ∧
    Sample.Main.jF 180 [91, 92, 30, 40] = -1 ∧
    Sample.Main.takeRows 180 [91, 92, 30, 40] = .ok [178] ∧
    Sample.Main.takeCols 360 [91, 92, 30, 40] =
      .ok [210, 211, 212, 213, 214, 215, 216, 217, 218, 219] := by
  have hj0 : Sample.Main.j0 180 [91, 92, 30, 40] = -2 := by
    rw [Sample.Main.j0]
    norm_num [Sample.Main.y0, Sample.interp1, Int.floor_eq_iff]
  have hjF : Sample.Main.jF 180 [91, 92, 30, 40] = -1 := by
    rw [Sample.Main.jF]
    norm_num [Sample.Main.yF, Sample.interp1, Int.ceil_eq_iff]
  have hi0 : Sample.Main.i0 360 [91, 92, 30, 40] = 210 := by
    rw [Sample.Main.i0]
    norm_num [Sample.Main.x0, Sample.interp1, Int.floor_eq_iff]
  have hiF : Sample.Main.iF 360 [91, 92, 30, 40] = 220 := by
    rw [Sample.Main.iF]
    norm_num [Sample.Main.xF, Sample.interp1, Int.ceil_eq_iff]
  refine ⟨by norm_num, hj0, hjF, ?_, ?_⟩
  · rw [Sample.Main.takeRows, Sample.Main.jj, hj0, hjF]
    rfl
  · rw [Sample.Main.takeCols, Sample.Main.ii, hi0, hiF]
    rfl

/-! ## Claim C9 -/

/-- Evaluation of `interp1` of src/export.py on a two-point support with a
non-degenerate span. -/
theorem export_interp1_eval (a b u v x : ℚ) (h : b - a ≠ 0) :
    Export.interp1 [a, b] [u, v] x = some (u + (x - a) / (b - a) * (v - u)) := by
  simp only [Export.interp1, List.getD_cons_zero, List.getD_cons_succ]
  rw [if_neg h]

/-- Claim C9, amended: for every altitude `alt` and heightmap range
`(min, max)` with `min ≤ alt ≤ max`, as long as the range does not force a
division by zero — that is, unless `alt ≥ 0` while `max = 0`, equivalently
provided `alt < 0 ∨ 0 < max` — `defaultColorMap` is well-defined and returns
an RGB triplet with every component in `[0, 1]`. (At `alt = max = 0` the
positive branch divides by `max - 0 = 0`: see the counterexample.) -/
theorem defaultColorMap_unit_range (alt mn mx : ℚ) (hlo : mn ≤ alt) (hhi : alt ≤ mx)
    (hdef : alt < 0 ∨ 0 < mx) :
    ∃ r g b, Export.defaultColorMap alt [mn, mx] = some [r, g, b] ∧
      0 ≤ r ∧ r ≤ 1 ∧ 0 ≤ g ∧ g ≤ 1 ∧ 0 ≤ b ∧ b ≤ 1 := by
  by_cases halt : alt < 0
  · have hmn0 : mn < 0 := lt_of_le_of_lt hlo halt
    have hd : (0 : ℚ) - mn ≠ 0 := sub_ne_zero.mpr hmn0.ne'
    have hp0 : 0 ≤ (alt - mn) / (0 - mn) := div_nonneg (by linarith) (by linarith)
    have hp1 : (alt - mn) / (0 - mn) ≤ 1 := (div_le_one (by linarith)).mpr (by linarith)
    rw [Export.defaultColorMap, if_pos halt]
    simp only [List.getD_cons_zero, List.getD_cons_succ]
    rw [export_interp1_eval mn 0 0 0 alt hd, export_interp1_eval mn 0 0 1 alt hd]
    simp only [Option.bind_eq_bind, Option.some_bind]
    refine ⟨_, _, _, rfl, ?_, ?_, ?_, ?_, ?_, ?_⟩ <;> nlinarith [hp0, hp1]
  · have halt0 : 0 ≤ alt := not_lt.mp halt
    have hmx : 0 < mx := hdef.resolve_left halt
    have hd : mx - 0 ≠ 0 := sub_ne_zero.mpr (by linarith)
    have hp0 : 0 ≤ (alt - 0) / (mx - 0) := div_nonneg (by linarith) (by linarith)
    have hp1 : (alt - 0) / (mx - 0) ≤ 1 := (div_le_one (by linarith)).mpr (by linarith)
    rw [Export.defaultColorMap, if_neg halt]
    simp only [List.getD_cons_zero, List.getD_cons_succ]
    rw [export_interp1_eval 0 mx 0 1 alt hd, export_interp1_eval 0 mx 1 1 alt hd]
    simp only [Option.bind_eq_bind, Option.some_bind]
    refine ⟨_, _, _, rfl, ?_, ?_, ?_, ?_, ?_, ?_⟩ <;> nlinarith [hp0, hp1]

/-- Witness for claim C9's amended theorem at `alt = 5`, range `(-10, 20)`. -/
theorem defaultColorMap_unit_range_witness :
    ∃ r g b, Export.defaultColorMap 5 [-10, 20] = some [r, g, b] ∧
      0 ≤ r ∧ r ≤ 1 ∧ 0 ≤ g ∧ g ≤ 1 ∧ 0 ≤ b ∧ b ≤ 1 :=
  defaultColorMap_unit_range 5 (-10) 20 (by norm_num) (by norm_num) (by norm_num)

/-- Counterexample to claim C9 as stated: the altitude `alt = 0` with the
(flat, all-zero) heightmap range `(0, 0)` satisfies `min ≤ alt ≤ max`, yet
`defaultColorMap` divides by zero — `interp1([0, 0], ..., 0)` has a zero
denominator — so no RGB triplet is produced at all. -/
theorem defaultColorMap_divzero_cex :
    (0 : ℚ) ≤ 0 ∧ (0 : ℚ) ≤ 0 ∧ Export.defaultColorMap 0 [0, 0] = none := by
  norm_num [Export.defaultColorMap, Export.interp1]

/-! ## Claim C10 -/

/-- Claim C10, amended: if all boundary vertices share a single latitude
(`latMin = latMax`), the row coordinate sequence `yy` is indeed empty, but
the pipeline never returns a zero-row raster without error: when both
`numpy.take` extractions succeed, the degenerate quad yields at most one
sub-grid row (`jF ≤ j0 + 1`), fewer than the four points per axis the cubic
spline fit requires, so the fit stage fails with insufficient samples; and
in every case (also when a take raises `IndexError` first, as for a
degenerate quad outside the raster's extent) the resampling stage fails with
some error. -/
theorem degenerate_quad_errors (J I : ℕ) (quad : List ℚ) (ppd : ℚ)
    (hdeg : quad.getD 0 0 = quad.getD 1 0) :
    Sample.Main.yy J quad ppd = [] ∧
    (∀ rows cols, Sample.Main.takeRows J quad = .ok rows →
      Sample.Main.takeCols I quad = .ok cols →
      Sample.resample J I quad ppd = .error .insufficientSamples) ∧
    (∃ e, Sample.resample J I quad ppd = .error e) := by
  have hyy : Sample.Main.yF J quad = Sample.Main.y0 J quad := by
    rw [Sample.Main.yF, Sample.Main.y0, hdeg]
  have hlen : (Sample.Main.jj J quad).length < 4 := by
    rw [Sample.Main.jj, Sample.pyRange]
    simp only [List.length_map, List.length_range]
    have h1 : Sample.Main.jF J quad ≤ Sample.Main.j0 J quad + 1 := by
      rw [Sample.Main.jF, Sample.Main.j0, hyy]
      exact Int.ceil_le_floor_add_one _
    omega
  have hfit : Sample.rbsFit (Sample.Main.jj J quad) (Sample.Main.ii I quad) =
      .error .insufficientSamples := by
    rw [Sample.rbsFit]
    split
    · rfl
    · rename_i hcond
      exact absurd (Or.inl hlen) hcond
  have hok : ∀ rows cols, Sample.Main.takeRows J quad = .ok rows →
      Sample.Main.takeCols I quad = .ok cols →
      Sample.resample J I quad ppd = .error .insufficientSamples := by
    intro rows cols htr htc
    unfold Sample.resample
    rw [htr, htc, hfit]
  refine ⟨?_, hok, ?_⟩
  · rw [Sample.Main.yy, Sample.npArange, hyy]
    simp
  · cases htr : Sample.Main.takeRows J quad with
    | error e =>
      refine ⟨.pyError e, ?_⟩
      unfold Sample.resample
      rw [htr]
    | ok rows =>
      cases htc : Sample.Main.takeCols I quad with
      | error e =>
        refine ⟨.pyError e, ?_⟩
        unfold Sample.resample
        rw [htr, htc]
      | ok cols => exact ⟨.insufficientSamples, hok rows cols htr htc⟩

/-- Witness for claim C10's amended theorem at the degenerate quad
`(5, 5, 30, 40)` on the 180 × 360 raster with density 1: the row sequence
is empty and the resampling stage fails. -/
theorem degenerate_quad_errors_witness :
    Sample.Main.yy 180 [5, 5, 30, 40] 1 = [] ∧
    ∃ e, Sample.resample 180 360 [5, 5, 30, 40] 1 = .error e :=
  ⟨(degenerate_quad_errors 180 360 [5, 5, 30, 40] 1 (by norm_num)).1,
   (degenerate_quad_errors 180 360 [5, 5, 30, 40] 1 (by norm_num)).2.2⟩

/-- Counterexample to claim C10 as stated: for the degenerate quad
`(10.5, 10.5, 30, 40)` (all vertices at latitude 10.5) on the 180 × 360
raster, the row sequence `yy` is empty as the claim says, and both
`numpy.take` extractions succeed, but the pipeline does not return an empty
raster without error: the sub-grid has a single row, so the spline-fit
stage fails. -/
theorem degenerate_quad_cex :
    Sample.Main.yy 180 [21 / 2, 21 / 2, 30, 40] 1 = [] ∧
    Sample.Main.takeRows 180 [21 / 2, 21 / 2, 30, 40] = .ok [79] ∧
    Sample.resample 180 360 [21 / 2, 21 / 2, 30, 40] 1 = .error .insufficientSamples := by
  have hyy : Sample.Main.yF 180 [21 / 2, 21 / 2, 30, 40] =
      Sample.Main.y0 180 [21 / 2, 21 / 2, 30, 40] := by
    rw [Sample.Main.yF, Sample.Main.y0]
    norm_num
  have hj0 : Sample.Main.j0 180 [21 / 2, 21 / 2, 30, 40] = 79 := by
    rw [Sample.Main.j0]
    norm_num [Sample.Main.y0, Sample.interp1, Int.floor_eq_iff]
  have hjF : Sample.Main.jF 180 [21 / 2, 21 / 2, 30, 40] = 80 := by
    rw [Sample.Main.jF]
    norm_num [Sample.Main.yF, Sample.interp1, Int.ceil_eq_iff]
  have hi0 : Sample.Main.i0 360 [21 / 2, 21 / 2, 30, 40] = 210 := by
    rw [Sample.Main.i0]
    norm_num [Sample.Main.x0, Sample.interp1, Int.floor_eq_iff]
  have hiF : Sample.Main.iF 360 [21 / 2, 21 / 2, 30, 40] = 220 := by
    rw [Sample.Main.iF]
    norm_num [Sample.Main.xF, Sample.interp1, Int.ceil_eq_iff]
  have htr : Sample.Main.takeRows 180 [21 / 2, 21 / 2, 30, 40] = .ok [79] := by
    rw [Sample.Main.takeRows, Sample.Main.jj, hj0, hjF]
    rfl
  have htc : Sample.Main.takeCols 360 [21 / 2, 21 / 2, 30, 40] =
      .ok [210, 211, 212, 213, 214, 215, 216, 217, 218, 219] := by
    rw [Sample.Main.takeCols, Sample.Main.ii, hi0, hiF]
    rfl
  have hlen : (Sample.Main.jj 180 [21 / 2, 21 / 2, 30, 40]).length < 4 := by
    rw [Sample.Main.jj, hj0, hjF]
    decide
  have hfit : Sample.rbsFit (Sample.Main.jj 180 [21 / 2, 21 / 2, 30, 40])
      (Sample.Main.ii 360 [21 / 2, 21 / 2, 30, 40]) = .error .insufficientSamples := by
    rw [Sample.rbsFit]
    split
    · rfl
    · rename_i hcond
      exact absurd (Or.inl hlen) hcond
  refine ⟨?_, htr, ?_⟩
  · rw [Sample.Main.yy, Sample.npArange, hyy]
    simp
  · unfold Sample.resample
    rw [htr, htc, hfit]
